import Mathlib

/-!
Verification of the Electron/React/ZeroMQ bridge of this repository.

Source files embedded here:
- `src/unnamed/part_000` — the Electron main process: ZeroMQ setup and
  receive loop (`setupZMQ`), the `send-command` IPC handler, the worker
  launch resolution (`startBackend`), and the `will-quit` cleanup handler.
- `src/src/App.jsx` — the renderer's update handler registered through
  `window.api.onUpdate`.

Modelling conventions: a JavaScript string is a `List Char`; a raw wire
frame (a Node `Buffer`) is a `List Nat` of byte values. Environment
functions the code relies on (`Buffer.toString("utf8")`, `JSON.parse`,
`String.prototype.split`, `Array.prototype.join`, `path.join`,
`ChildProcess.kill`, ZeroMQ SUB-side filtering) are embedded after their
documented semantics, each noted at its definition.
-/

/-- A JavaScript string, represented as its list of code points. -/
abbrev JStr := List Char

/-- Models JavaScript `s.split(sep)` for a single-character separator:
always returns at least one group; adjacent separators yield empty
groups; `"".split(sep)` is `[""]`. -/
def jsSplit (sep : Char) : JStr → List JStr
  | [] => [[]]
  | c :: rest =>
    let r := jsSplit sep rest
    if c = sep then [] :: r
    else (c :: r.headD []) :: r.tail

/-- Models JavaScript `arr.join(sep)` for a single-character separator. -/
def jsJoin (sep : Char) : List JStr → JStr
  | [] => []
  | [g] => g
  | g :: gs => g ++ (sep :: jsJoin sep gs)

/-- Byte values `0x80`–`0xBF` are UTF-8 continuation bytes. -/
def isCont (b : Nat) : Bool := decide (0x80 ≤ b ∧ b < 0xC0)

/-- Lower bound of the first continuation byte for a given lead byte
(`0xE0` and `0xF0` exclude overlong encodings). -/
def cont1Lo (b : Nat) : Nat :=
  if b = 0xE0 then 0xA0 else if b = 0xF0 then 0x90 else 0x80

/-- Upper bound of the first continuation byte for a given lead byte
(`0xED` excludes surrogates, `0xF4` caps at U+10FFFF). -/
def cont1Hi (b : Nat) : Nat :=
  if b = 0xED then 0x9F else if b = 0xF4 then 0x8F else 0xBF

/-- The Unicode replacement character U+FFFD. -/
def replChar : Char := Char.ofNat 0xFFFD

/-- Models the WHATWG UTF-8 decoder used by Node's
`Buffer.prototype.toString("utf8")`: never fails; each maximal invalid
subpart is replaced by one U+FFFD and decoding resumes at the offending
byte. Structurally recursive on fuel (one unit per byte consumed) so
that concrete decodes reduce definitionally. -/
def utf8DecodeAux : Nat → List Nat → List Char
  | 0, _ => []
  | _ + 1, [] => []
  | fuel + 1, b :: rest =>
    if b < 0x80 then Char.ofNat b :: utf8DecodeAux fuel rest
    else if b < 0xC2 then replChar :: utf8DecodeAux fuel rest
    else if b < 0xE0 then
      match rest with
      | [] => [replChar]
      | b2 :: r2 =>
        if isCont b2 then
          Char.ofNat ((b - 0xC0) * 0x40 + (b2 - 0x80)) :: utf8DecodeAux fuel r2
        else replChar :: utf8DecodeAux fuel (b2 :: r2)
    else if b < 0xF0 then
      match rest with
      | [] => [replChar]
      | b2 :: r2 =>
        if cont1Lo b ≤ b2 ∧ b2 ≤ cont1Hi b then
          match r2 with
          | [] => [replChar]
          | b3 :: r3 =>
            if isCont b3 then
              Char.ofNat ((b - 0xE0) * 0x1000 + (b2 - 0x80) * 0x40 + (b3 - 0x80)) ::
                utf8DecodeAux fuel r3
            else replChar :: utf8DecodeAux fuel (b3 :: r3)
        else replChar :: utf8DecodeAux fuel (b2 :: r2)
    else if b < 0xF5 then
      match rest with
      | [] => [replChar]
      | b2 :: r2 =>
        if cont1Lo b ≤ b2 ∧ b2 ≤ cont1Hi b then
          match r2 with
          | [] => [replChar]
          | b3 :: r3 =>
            if isCont b3 then
              match r3 with
              | [] => [replChar]
              | b4 :: r4 =>
                if isCont b4 then
                  Char.ofNat ((b - 0xF0) * 0x40000 + (b2 - 0x80) * 0x1000 +
                    (b3 - 0x80) * 0x40 + (b4 - 0x80)) :: utf8DecodeAux fuel r4
                else replChar :: utf8DecodeAux fuel (b4 :: r4)
            else replChar :: utf8DecodeAux fuel (b3 :: r3)
        else replChar :: utf8DecodeAux fuel (b2 :: r2)
    else replChar :: utf8DecodeAux fuel rest

/-- Decodes a whole byte sequence (each step of `utf8DecodeAux` consumes
at least one byte, so the sequence's length is enough fuel). -/
def utf8Decode (bs : List Nat) : List Char := utf8DecodeAux bs.length bs

/-- Decides whether a byte sequence is well-formed UTF-8 (same sequence
classification as `utf8Decode`, but rejecting instead of replacing). -/
def validUtf8 : List Nat → Bool
  | [] => true
  | b :: rest =>
    if b < 0x80 then validUtf8 rest
    else if b < 0xC2 then false
    else if b < 0xE0 then
      match rest with
      | b2 :: r2 => isCont b2 && validUtf8 r2
      | [] => false
    else if b < 0xF0 then
      match rest with
      | b2 :: b3 :: r3 =>
        (decide (cont1Lo b ≤ b2 ∧ b2 ≤ cont1Hi b) && isCont b3) && validUtf8 r3
      | _ => false
    else if b < 0xF5 then
      match rest with
      | b2 :: b3 :: b4 :: r4 =>
        ((decide (cont1Lo b ≤ b2 ∧ b2 ≤ cont1Hi b) && isCont b3) && isCont b4) &&
          validUtf8 r4
      | _ => false
    else false

/-- Models Node `buffer.toString()` (UTF-8, lossy, total) as used by
`msg.toString()` and `reply.toString()` in `src/unnamed/part_000`. -/
def bufferToString (bs : List Nat) : JStr := utf8Decode bs

/-- A JSON number kept exactly as decimal mantissa times a power of
ten (`JSON.parse` would convert to a 64-bit float; no verified claim
depends on float rounding, only on zeroness and on concrete small
integers, which the two representations agree on). -/
structure JNumber where
  mant : Int
  exp10 : Int

/-- A JavaScript value as produced by `JSON.parse`. -/
inductive JValue where
  | jnull
  | jbool (b : Bool)
  | jnum (n : JNumber)
  | jstr (s : List Char)
  | jarr (elems : List JValue)
  | jobj (fields : List (List Char × JValue))

/-- JSON insignificant whitespace (space, tab, line feed, carriage return). -/
def isJsonWs (c : Char) : Bool :=
  c = ' ' || c = Char.ofNat 9 || c = Char.ofNat 10 || c = Char.ofNat 13

/-- Drops leading JSON whitespace. -/
def skipWs : List Char → List Char
  | [] => []
  | c :: rest => if isJsonWs c then skipWs rest else c :: rest

/-- Value of one hexadecimal digit, `none` for a non-hex character. -/
def hexVal (c : Char) : Option Nat :=
  if c.isDigit then some (c.toNat - 48)
  else if 'a' ≤ c ∧ c ≤ 'f' then some (c.toNat - 87)
  else if 'A' ≤ c ∧ c ≤ 'F' then some (c.toNat - 55)
  else none

/-- Decimal digits read left to right as a natural number. -/
def digitsToNat (ds : List Char) : Nat :=
  List.foldl (fun a c => a * 10 + (c.toNat - 48)) 0 ds

/-- Code point from a `\uXXXX` escape; a value outside the scalar range
(a surrogate) is approximated by U+FFFD since a Lean `Char` cannot hold
it. -/
def escChar (n : Nat) : Char :=
  if Nat.isValidChar n then Char.ofNat n else replChar

/-- Parses the body of a JSON string after the opening quote, returning
its contents and the input after the closing quote. Fuelled; callers pass
fuel exceeding the input length. -/
def parseStringBody : Nat → List Char → Option (JStr × List Char)
  | 0, _ => none
  | _ + 1, [] => none
  | fuel + 1, c :: rest =>
    if c = '"' then some ([], rest)
    else if c = '\\' then
      match rest with
      | [] => none
      | e :: r2 =>
        if e = '"' ∨ e = '\\' ∨ e = '/' then
          (parseStringBody fuel r2).map (fun p => (e :: p.1, p.2))
        else if e = 'b' then
          (parseStringBody fuel r2).map (fun p => (Char.ofNat 8 :: p.1, p.2))
        else if e = 'f' then
          (parseStringBody fuel r2).map (fun p => (Char.ofNat 12 :: p.1, p.2))
        else if e = 'n' then
          (parseStringBody fuel r2).map (fun p => (Char.ofNat 10 :: p.1, p.2))
        else if e = 'r' then
          (parseStringBody fuel r2).map (fun p => (Char.ofNat 13 :: p.1, p.2))
        else if e = 't' then
          (parseStringBody fuel r2).map (fun p => (Char.ofNat 9 :: p.1, p.2))
        else if e = 'u' then
          match r2 with
          | h1 :: h2 :: h3 :: h4 :: r3 =>
            match hexVal h1, hexVal h2, hexVal h3, hexVal h4 with
            | some v1, some v2, some v3, some v4 =>
              (parseStringBody fuel r3).map
                (fun p => (escChar (v1 * 4096 + v2 * 256 + v3 * 16 + v4) :: p.1, p.2))
            | _, _, _, _ => none
          | _ => none
        else none
    else if c.toNat < 0x20 then none
    else (parseStringBody fuel rest).map (fun p => (c :: p.1, p.2))

/-- Parses a JSON number (sign, integer part without leading zeros,
optional fraction, optional exponent) as an exact decimal. -/
def parseNumber (s : List Char) : Option (JNumber × List Char) :=
  let sg := match s with
    | '-' :: r => (true, r)
    | _ => (false, s)
  let neg := sg.1
  let s1 := sg.2
  let ds := s1.takeWhile Char.isDigit
  let s2 := s1.dropWhile Char.isDigit
  if ds = [] then none
  else if 1 < ds.length ∧ ds.headD '0' = '0' then none
  else
    let fr : Option (JStr × List Char) :=
      match s2 with
      | '.' :: r =>
        match r.takeWhile Char.isDigit, r.dropWhile Char.isDigit with
        | [], _ => none
        | fs, s3 => some (fs, s3)
      | _ => some ([], s2)
    match fr with
    | none => none
    | some (fs, s3) =>
      let ex : Option (Bool × JStr × List Char) :=
        match s3 with
        | e :: r =>
          if e = 'e' ∨ e = 'E' then
            let es := match r with
              | '+' :: rr => (false, rr)
              | '-' :: rr => (true, rr)
              | _ => (false, r)
            match es.2.takeWhile Char.isDigit, es.2.dropWhile Char.isDigit with
            | [], _ => none
            | eds, s4 => some (es.1, eds, s4)
          else some (false, [], s3)
        | [] => some (false, [], s3)
      match ex with
      | none => none
      | some (esign, eds, s4) =>
        let mantNat := digitsToNat (ds ++ fs)
        let mant : Int := if neg then -(mantNat : Int) else (mantNat : Int)
        let e10 : Int :=
          (if esign then -(digitsToNat eds : Int) else (digitsToNat eds : Int)) -
            (fs.length : Int)
        some ({ mant := mant, exp10 := e10 }, s4)

mutual

/-- Parses one JSON value (after optional leading whitespace), returning
it with the unconsumed input. Fuelled; `jsonParse` passes ample fuel. -/
def parseVal : Nat → List Char → Option (JValue × List Char)
  | 0, _ => none
  | fuel + 1, s =>
    match skipWs s with
    | [] => none
    | c :: rest =>
      if c = '"' then
        (parseStringBody (rest.length + 1) rest).map (fun p => (JValue.jstr p.1, p.2))
      else if c = 't' then
        match rest with
        | 'r' :: 'u' :: 'e' :: r => some (JValue.jbool true, r)
        | _ => none
      else if c = 'f' then
        match rest with
        | 'a' :: 'l' :: 's' :: 'e' :: r => some (JValue.jbool false, r)
        | _ => none
      else if c = 'n' then
        match rest with
        | 'u' :: 'l' :: 'l' :: r => some (JValue.jnull, r)
        | _ => none
      else if c = '[' then
        match skipWs rest with
        | ']' :: r => some (JValue.jarr [], r)
        | _ =>
          match parseElems fuel rest with
          | some (vs, r) => some (JValue.jarr vs, r)
          | none => none
      else if c = '\x7b' then
        match skipWs rest with
        | '\x7d' :: r => some (JValue.jobj [], r)
        | _ =>
          match parseMembers fuel rest with
          | some (ms, r) => some (JValue.jobj ms, r)
          | none => none
      else
        match parseNumber (c :: rest) with
        | some (q, r) => some (JValue.jnum q, r)
        | none => none

/-- Parses the comma-separated elements of a non-empty JSON array up to
and including the closing bracket. -/
def parseElems : Nat → List Char → Option (List JValue × List Char)
  | 0, _ => none
  | fuel + 1, s =>
    match parseVal fuel s with
    | none => none
    | some (v, r) =>
      match skipWs r with
      | ',' :: r2 =>
        match parseElems fuel r2 with
        | some (vs, r3) => some (v :: vs, r3)
        | none => none
      | ']' :: r2 => some ([v], r2)
      | _ => none

/-- Parses the comma-separated members of a non-empty JSON object up to
and including the closing brace. -/
def parseMembers : Nat → List Char → Option (List (List Char × JValue) × List Char)
  | 0, _ => none
  | fuel + 1, s =>
    match skipWs s with
    | '"' :: r =>
      match parseStringBody (r.length + 1) r with
      | none => none
      | some (k, r1) =>
        match skipWs r1 with
        | ':' :: r2 =>
          match parseVal fuel r2 with
          | none => none
          | some (v, r3) =>
            match skipWs r3 with
            | ',' :: r4 =>
              match parseMembers fuel r4 with
              | some (ms, r5) => some ((k, v) :: ms, r5)
              | none => none
            | '\x7d' :: r4 => some ([(k, v)], r4)
            | _ => none
        | _ => none
    | _ => none

end

/-- Models JavaScript `JSON.parse` over the ECMA-404 grammar: `none`
where `JSON.parse` would throw a `SyntaxError`. -/
def jsonParse (s : JStr) : Option JValue :=
  match parseVal (2 * s.length + 2) s with
  | some (v, r) =>
    match skipWs r with
    | [] => some v
    | _ => none
  | none => none

/-- Models JavaScript property access `obj.key` on a parsed JSON value:
`none` plays the role of `undefined`; for duplicate keys the last
occurrence wins, as in `JSON.parse`. -/
def jGet (v : JValue) (key : JStr) : Option JValue :=
  match v with
  | JValue.jobj fields => fields.reverse.lookup key
  | _ => none

/-- Models JavaScript truthiness of `data.value` (with `none` standing
for `undefined`) as tested by `if (data.value)` in `App.jsx`. -/
def jsTruthy : Option JValue → Bool
  | none => false
  | some JValue.jnull => false
  | some (JValue.jbool b) => b
  | some (JValue.jnum n) => if n.mant = 0 then false else true
  | some (JValue.jstr s) => if s = [] then false else true
  | some (JValue.jarr _) => true
  | some (JValue.jobj _) => true

/-- The decode step of the renderer's update handler
(`src/src/App.jsx` lines 13–14):
`const [topic, ...rest] = msg.split(' '); const dataStr = rest.join(' ')`. -/
def onUpdateDecode (msg : JStr) : JStr × JStr :=
  let parts := jsSplit ' ' msg
  (parts.headD [], jsJoin ' ' parts.tail)

/-- The renderer's `dataStr.replace(/'/g, '"')` (`src/src/App.jsx`
line 24): every single quote becomes a double quote. -/
def replaceQuote (s : JStr) : JStr :=
  s.map (fun c => if c = Char.ofNat 39 then Char.ofNat 34 else c)

/-- The log line `[$topic] $dataStr` appended by the handler
(`src/src/App.jsx` line 17). -/
def logLine (topic dataStr : JStr) : JStr :=
  ('[' :: topic) ++ (']' :: ' ' :: dataStr)

/-- The renderer state touched by the update handler: the `logs` and
`progress` React state plus the `console.error` sink. -/
structure AppState where
  logs : List JStr
  progress : JValue
  errors : List JStr

/-- The renderer's update handler (`src/src/App.jsx` lines 11–30):
splits the frame on spaces, appends a log line, and for topic
`progress` JSON-parses the payload after replacing single quotes with
double quotes; a truthy `value` member becomes the new progress, a
parse failure is logged to `console.error` and leaves progress as is. -/
def rendererOnUpdate (msg : JStr) (st : AppState) : AppState :=
  let topic := (onUpdateDecode msg).1
  let dataStr := (onUpdateDecode msg).2
  let st1 : AppState := { st with logs := st.logs ++ [logLine topic dataStr] }
  if topic = "progress".data then
    match jsonParse (replaceQuote dataStr) with
    | some data =>
      if jsTruthy (jGet data "value".data) then
        { st1 with progress := (jGet data "value".data).getD JValue.jnull }
      else st1
    | none => { st1 with errors := st1.errors ++ ["JSON Parse Error".data] }
  else st1

/-- The topics subscribed in `setupZMQ` (`src/unnamed/part_000`
lines 23–24): `sockSub.subscribe("progress"); sockSub.subscribe("result")`. -/
def subscribedTopics : List JStr := ["progress".data, "result".data]

/-- Models ZeroMQ SUB-side filtering, per the spec's transport
description ("subscriber declares topic prefixes, receives only matching
frames"): a frame reaches the receive loop exactly when some subscribed
string is a prefix of the frame. -/
def subDelivers (subs : List JStr) (frame : JStr) : Bool :=
  subs.any (fun t => t.isPrefixOf frame)

/-- One event seen by the receive loop of `setupZMQ`: a delivered frame
(raw bytes), a mutation of the `mainWindow` binding by the window
lifecycle (`createWindow` sets it, the `closed` handler clears it), a
transport error rejecting the iterator, or an explicit socket close. -/
inductive ZEvent where
  | frame (bytes : List Nat)
  | winSet (present : Bool)
  | terr (e : JStr)
  | close

/-- Observable outcome of running the receive loop over a finite event
history: frames forwarded to `webContents.send`, `console.error`
entries, and whether the loop has exited. -/
structure LoopOut where
  forwarded : List JStr
  errLog : List JStr
  terminated : Bool

/-- The receive loop of `setupZMQ` (`src/unnamed/part_000` lines 30–41):
`for await (const [msg] of sockSub)` decodes each frame with
`msg.toString()` and forwards it via `mainWindow.webContents.send` only
when `mainWindow` is non-null; the surrounding `try`/`catch` logs a
transport error and returns (no restart). The `Bool` argument is whether
`mainWindow` is currently non-null. -/
def recvLoop : Bool → List ZEvent → LoopOut
  | _, [] => { forwarded := [], errLog := [], terminated := false }
  | w, ZEvent.frame bs :: rest =>
    let out := recvLoop w rest
    if w then { out with forwarded := bufferToString bs :: out.forwarded }
    else out
  | _, ZEvent.winSet b :: rest => recvLoop b rest
  | _, ZEvent.terr e :: _ => { forwarded := [], errLog := [e], terminated := true }
  | _, ZEvent.close :: _ => { forwarded := [], errLog := [], terminated := true }

/-- The reply of the `send-command` handler when the ZeroMQ round trip
throws (`src/unnamed/part_000` line 86):
`JSON.stringify({ error: "Failed to reach backend" })`. -/
def errorReplyJson : JStr := "\x7b\"error\":\"Failed to reach backend\"\x7d".data

/-- The `ipcMain.handle("send-command")` handler (`src/unnamed/part_000`
lines 74–88): sends the command, awaits one reply and returns its UTF-8
decoding; any transport rejection is caught and turned into the
structured JSON error string. The transport argument models the
`sockReq` send/receive round trip: a reply buffer, or an error. -/
def sendCommandHandler (transport : JStr → Except JStr (List Nat)) (command : JStr) :
    JStr :=
  match transport command with
  | Except.ok reply => bufferToString reply
  | Except.error _ => errorReplyJson

/-- A spawned child process handle: whether the OS process is still
running, and how many termination signals have been delivered to it. -/
structure ProcHandle where
  running : Bool
  signals : Nat

/-- Models Node `ChildProcess.kill()` (sequential view): delivers one
termination signal if the process is still running; once the process has
exited it does nothing and does not throw (Node returns `false` without
signalling when the handle is gone). -/
def childKill (h : ProcHandle) : ProcHandle :=
  if h.running then { running := false, signals := h.signals + 1 } else h

/-- The `will-quit` cleanup handler (`src/unnamed/part_000` lines
169–177) restricted to the worker process: `if (pythonProcess)
pythonProcess.kill()`. `none` is the state before `startBackend` ever
ran. The socket `close()` calls do not touch the process handle. -/
def willQuit (p : Option ProcHandle) : Option ProcHandle :=
  match p with
  | none => none
  | some h => some (childKill h)

/-- Normalises path segments Node-style: drops `.` and empty segments,
a `..` pops the previous segment when possible (and disappears at the
root of an absolute path). -/
def pathNorm (isAbs : Bool) : List JStr → List JStr → List JStr
  | [], acc => acc.reverse
  | seg :: rest, acc =>
    if seg = [] ∨ seg = ".".data then pathNorm isAbs rest acc
    else if seg = "..".data then
      match acc with
      | top :: acc2 =>
        if top = "..".data then pathNorm isAbs rest (seg :: acc)
        else pathNorm isAbs rest acc2
      | [] => if isAbs then pathNorm isAbs rest [] else pathNorm isAbs rest [seg]
    else pathNorm isAbs rest (seg :: acc)

/-- Models Node `path.join` (POSIX separators): joins the non-empty
parts with `/` and normalises the result; an empty join yields `.`. -/
def pathJoin (parts : List JStr) : JStr :=
  let nonEmpty := parts.filter (fun p => p ≠ [])
  if nonEmpty = [] then ".".data
  else
    let joined := jsJoin '/' nonEmpty
    let isAbs := joined.headD ' ' = '/'
    let segs := pathNorm isAbs (jsSplit '/' joined) []
    let body := jsJoin '/' segs
    if isAbs then '/' :: body
    else if body = [] then ".".data
    else body

/-- The launch parameters `startBackend` hands to `spawn(cmd, args)`. -/
structure LaunchCfg where
  cmd : JStr
  args : List JStr

/-- The launch resolution of `startBackend` (`src/unnamed/part_000`
lines 118–158): packaged mode runs the platform-specific binary from
`process.resourcesPath` with no arguments; development mode runs the
platform-selected Python interpreter with the script path as its only
argument. -/
def startBackend (isPackaged : Bool) (platform dirname resourcesPath : JStr) :
    LaunchCfg :=
  if isPackaged then
    let executableName :=
      if platform = "win32".data then "backend.exe".data else "backend".data
    let scriptPath := pathJoin [resourcesPath, executableName]
    { cmd := scriptPath, args := [] }
  else
    let scriptPath := pathJoin [dirname, "..".data, "py_backend".data, "backend.py".data]
    { cmd := if platform = "win32".data then "python".data else "python3".data,
      args := [scriptPath] }

theorem jsSplit_ne_nil (sep : Char) (s : JStr) : jsSplit sep s ≠ [] := by
  cases s with
  | nil => simp [jsSplit]
  | cons c rest =>
    simp only [jsSplit]
    split <;> simp

theorem jsJoin_jsSplit (sep : Char) (s : JStr) : jsJoin sep (jsSplit sep s) = s := by
  induction s with
  | nil => rfl
  | cons c rest ih =>
    rcases hr : jsSplit sep rest with _ | ⟨g, gs⟩
    · exact absurd hr (jsSplit_ne_nil sep rest)
    · rw [hr] at ih
      by_cases hc : c = sep
      · subst hc
        simp only [jsSplit, hr, if_pos rfl]
        cases gs <;> simp_all [jsJoin]
      · simp only [jsSplit, hr, if_neg hc]
        cases gs <;> simp_all [jsJoin]

theorem jsSplit_append_cons (sep : Char) (t p : JStr) (h : sep ∉ t) :
    jsSplit sep (t ++ sep :: p) = t :: jsSplit sep p := by
  induction t with
  | nil => simp [jsSplit]
  | cons c t2 ih =>
    have hc : ¬ c = sep := fun e => h (e ▸ List.mem_cons_self c t2)
    have h2 : sep ∉ t2 := fun m => h (List.mem_cons_of_mem _ m)
    simp only [List.cons_append, jsSplit, if_neg hc, List.append_eq]
    rw [ih h2]
    simp

theorem jsSplit_no_sep (sep : Char) (s : JStr) (h : sep ∉ s) : jsSplit sep s = [s] := by
  induction s with
  | nil => rfl
  | cons c rest ih =>
    have hc : ¬ c = sep := fun e => h (e ▸ List.mem_cons_self c rest)
    have h2 : sep ∉ rest := fun m => h (List.mem_cons_of_mem _ m)
    simp only [jsSplit, ih h2, if_neg hc]
    simp

theorem onUpdateDecode_append_space (t p : JStr) (h : ' ' ∉ t) :
    onUpdateDecode (t ++ ' ' :: p) = (t, p) := by
  simp only [onUpdateDecode]
  rw [jsSplit_append_cons ' ' t p h]
  simp [jsJoin_jsSplit]

/-- C1: the renderer's decode step splits a frame only on the first
space character — the delivered pair is the text before the first space
and the entire remainder, preserved exactly even when it contains
further spaces; in particular the frame `progress \x7b"value": 50\x7d`
yields topic `progress` and that exact JSON payload. -/
theorem c1_decode_splits_on_first_space_only :
    (∀ t p : JStr, ' ' ∉ t → onUpdateDecode (t ++ ' ' :: p) = (t, p)) ∧
    onUpdateDecode ("progress \x7b\"value\": 50\x7d".data) =
      ("progress".data, "\x7b\"value\": 50\x7d".data) := by
  constructor
  · exact onUpdateDecode_append_space
  · rfl

/-- Witness for C1 at the spec's own example frame. -/
theorem c1_decode_splits_on_first_space_only_w :
    onUpdateDecode ("result".data ++ ' ' :: "a b c".data) = ("result".data, "a b c".data) :=
  c1_decode_splits_on_first_space_only.1 ("result".data) ("a b c".data) (by decide)

/-- C4: a frame containing no whitespace at all decodes to the whole
frame as topic with an empty payload, and the (total) decode step raises
no error; in particular the frame `result` decodes to
`(topic=result, payload="")`. -/
theorem c4_no_whitespace_frame_decodes_to_topic_only :
    (∀ msg : JStr, (∀ c ∈ msg, c.isWhitespace = false) →
        onUpdateDecode msg = (msg, [])) ∧
    onUpdateDecode ("result".data) = ("result".data, []) := by
  constructor
  · intro msg h
    have hs : ' ' ∉ msg := fun m => absurd (h ' ' m) (by decide)
    simp only [onUpdateDecode]
    rw [jsSplit_no_sep ' ' msg hs]
    simp [jsJoin]
  · rfl

/-- Witness for C4 at the frame `result`. -/
theorem c4_no_whitespace_frame_decodes_to_topic_only_w :
    onUpdateDecode ("result".data) = ("result".data, []) :=
  c4_no_whitespace_frame_decodes_to_topic_only.1 ("result".data) (by decide)

/-- C2: the `send-command` handler returns the worker's reply decoded as
text when the round trip succeeds, and on any transport failure returns
the structured error value (a JSON object with an `error` member) to the
caller instead of raising — the handler is a total function of the
transport outcome. -/
theorem c2_send_command_returns_reply_or_structured_error :
    (∀ (tr : JStr → Except JStr (List Nat)) (c : JStr) (r : List Nat),
        tr c = Except.ok r → sendCommandHandler tr c = bufferToString r) ∧
    (∀ (tr : JStr → Except JStr (List Nat)) (c e : JStr),
        tr c = Except.error e → sendCommandHandler tr c = errorReplyJson) ∧
    jsonParse errorReplyJson =
      some (JValue.jobj [("error".data, JValue.jstr ("Failed to reach backend".data))]) := by
  refine ⟨?_, ?_, ?_⟩
  · intro tr c r h
    simp [sendCommandHandler, h]
  · intro tr c e h
    simp [sendCommandHandler, h]
  · rfl

/-- Witness for C2: an echoing transport and a refused transport. -/
theorem c2_send_command_returns_reply_or_structured_error_w :
    sendCommandHandler (fun _ => Except.ok [104, 105]) ("go".data) =
      bufferToString [104, 105] ∧
    sendCommandHandler (fun _ => Except.error ("refused".data)) ("go".data) =
      errorReplyJson :=
  ⟨c2_send_command_returns_reply_or_structured_error.1
      (fun _ => Except.ok [104, 105]) ("go".data) [104, 105] rfl,
    c2_send_command_returns_reply_or_structured_error.2.1
      (fun _ => Except.error ("refused".data)) ("go".data) ("refused".data) rfl⟩

/-- C5: the `will-quit` cleanup sends a termination signal to the worker
only while it is still running, and is idempotent — run a second time in
sequence, or after the worker has already exited, it changes nothing
(and, being a total function, raises nothing). -/
theorem c5_terminate_only_running_and_idempotent :
    (∀ p : Option ProcHandle, willQuit (willQuit p) = willQuit p) ∧
    (∀ h : ProcHandle, h.running = false → willQuit (some h) = some h) ∧
    (∀ h : ProcHandle, h.running = true →
        willQuit (some h) = some { running := false, signals := h.signals + 1 }) := by
  refine ⟨?_, ?_, ?_⟩
  · intro p
    cases p with
    | none => rfl
    | some h =>
      by_cases hr : h.running <;> simp [willQuit, childKill, hr]
  · intro h hr
    simp [willQuit, childKill, hr]
  · intro h hr
    simp [willQuit, childKill, hr]

/-- Witness for C5: a second terminate after exit is a no-op; a running
worker receives exactly one signal. -/
theorem c5_terminate_only_running_and_idempotent_w :
    willQuit (some { running := false, signals := 1 }) =
      some { running := false, signals := 1 } ∧
    willQuit (some { running := true, signals := 0 }) =
      some { running := false, signals := 1 } :=
  ⟨c5_terminate_only_running_and_idempotent.2.1 { running := false, signals := 1 } rfl,
    c5_terminate_only_running_and_idempotent.2.2 { running := true, signals := 0 } rfl⟩

/-- C6: `startBackend` resolves the launch parameters from the
deployment mode — development mode runs the platform-selected
interpreter (`python` on win32, `python3` otherwise) with the script
path as its single argument; packaged mode runs the platform-specific
binary (`backend.exe` on win32, `backend` otherwise) joined onto the
runtime's resource directory, with no arguments. -/
theorem c6_start_resolves_launch_parameters_by_mode :
    ∀ platform dirname resourcesPath : JStr,
      ((startBackend false platform dirname resourcesPath).cmd =
          (if platform = "win32".data then "python".data else "python3".data) ∧
        (startBackend false platform dirname resourcesPath).args =
          [pathJoin [dirname, "..".data, "py_backend".data, "backend.py".data]]) ∧
      ((startBackend true platform dirname resourcesPath).cmd =
          pathJoin [resourcesPath,
            if platform = "win32".data then "backend.exe".data else "backend".data] ∧
        (startBackend true platform dirname resourcesPath).args = []) := by
  intro platform dirname resourcesPath
  exact ⟨⟨rfl, rfl⟩, rfl, rfl⟩

/-- C7: the receive loop forwards every frame synchronously in arrival
order and keeps running while only frames arrive; on a transport error
it logs the error once and exits, ignoring everything after the error
(no restart, no retry), and the whole run is an ordinary value — the
caught error never escapes to crash the hosting process. -/
theorem c7_loop_runs_until_error_then_logs_and_exits :
    (∀ (w : Bool) (fs : List (List Nat)) (e : JStr) (more : List ZEvent),
        recvLoop w (fs.map ZEvent.frame ++ ZEvent.terr e :: more) =
          { forwarded := if w then fs.map bufferToString else [],
            errLog := [e], terminated := true }) ∧
    (∀ (w : Bool) (fs : List (List Nat)),
        recvLoop w (fs.map ZEvent.frame) =
          { forwarded := if w then fs.map bufferToString else [],
            errLog := [], terminated := false }) := by
  constructor
  · intro w fs e more
    induction fs with
    | nil => cases w <;> rfl
    | cons b fs ih =>
      cases w with
      | true => simp_all [recvLoop]
      | false => simp_all [recvLoop]
  · intro w fs
    induction fs with
    | nil => cases w <;> rfl
    | cons b fs ih =>
      cases w with
      | true => simp_all [recvLoop]
      | false => simp_all [recvLoop]

/-- C9: a frame that arrives while no window exists (initially, or after
the `closed` handler cleared `mainWindow`) is silently discarded — the
loop's outcome is exactly the outcome without that frame: nothing
delivered, nothing buffered for later, no error logged, and the loop
continues with the remaining events. -/
theorem c9_frames_without_window_are_silently_discarded :
    (∀ (bs : List Nat) (rest : List ZEvent),
        recvLoop false (ZEvent.frame bs :: rest) = recvLoop false rest) ∧
    (∀ (w : Bool) (bs : List Nat) (rest : List ZEvent),
        recvLoop w (ZEvent.winSet false :: ZEvent.frame bs :: rest) =
          recvLoop false rest) := by
  constructor
  · intro bs rest
    simp [recvLoop]
  · intro w bs rest
    simp [recvLoop]

/-- C3 counterexample: the frame `results 1` has topic `results`, which
is not in the set containing `progress` and `result`, yet the
prefix-based subscription filter delivers it (because `result` is a
prefix of the frame) — so "topic not in the set implies never delivered"
is false. -/
theorem c3_counterexample_topic_outside_set_delivered :
    subDelivers subscribedTopics ("results 1".data) = true ∧
    (onUpdateDecode ("results 1".data)).1 ≠ "progress".data ∧
    (onUpdateDecode ("results 1".data)).1 ≠ "result".data := by
  refine ⟨rfl, by decide, by decide⟩

/-- C3 amended: subscription filtering is by topic prefix — a frame that
starts with neither subscribed string `progress` nor `result` (for
example one with topic `debug`) is never delivered by the transport. -/
theorem c3_amended_filtering_is_by_topic_prefix :
    (∀ frame : JStr, ("progress".data).isPrefixOf frame = false →
        ("result".data).isPrefixOf frame = false →
        subDelivers subscribedTopics frame = false) ∧
    subDelivers subscribedTopics ("debug \x7b\x7d".data) = false := by
  constructor
  · intro frame h1 h2
    simp [subDelivers, subscribedTopics, h1, h2]
  · rfl

/-- Witness for the amended C3 at a frame with topic `debug`. -/
theorem c3_amended_filtering_is_by_topic_prefix_w :
    subDelivers subscribedTopics ("debug x".data) = false :=
  c3_amended_filtering_is_by_topic_prefix.1 ("debug x".data) (by decide) (by decide)

/-- C8 counterexample: the byte `0xFF` can never occur in well-formed
UTF-8, yet the receive loop forwards the frame `[0xFF, 0x68, 0x69]`
(lossily decoded, U+FFFD for the bad byte) with nothing logged and the
loop still running — the frame is neither logged nor dropped. -/
theorem c8_counterexample_invalid_utf8_is_forwarded :
    validUtf8 [0xFF, 0x68, 0x69] = false ∧
    recvLoop true [ZEvent.frame [0xFF, 0x68, 0x69]] =
      { forwarded := ["�hi".data], errLog := [], terminated := false } := by
  exact ⟨rfl, rfl⟩

/-- C8 amended: a frame that is not valid UTF-8 is not dropped — it is
decoded lossily (invalid subparts become U+FFFD) and forwarded exactly
like any other frame, nothing is logged for it, and the receive loop
continues with the remaining events uninterrupted. -/
theorem c8_amended_invalid_utf8_forwarded_lossily :
    ∀ (bs : List Nat) (rest : List ZEvent), validUtf8 bs = false →
      recvLoop true (ZEvent.frame bs :: rest) =
        { forwarded := bufferToString bs :: (recvLoop true rest).forwarded,
          errLog := (recvLoop true rest).errLog,
          terminated := (recvLoop true rest).terminated } := by
  intro bs rest _
  simp [recvLoop]

/-- Witness for the amended C8 at the invalid byte `0xFF`. -/
theorem c8_amended_invalid_utf8_forwarded_lossily_w :
    recvLoop true [ZEvent.frame [0xFF]] =
      { forwarded := bufferToString [0xFF] :: (recvLoop true []).forwarded,
        errLog := (recvLoop true []).errLog,
        terminated := (recvLoop true []).terminated } :=
  c8_amended_invalid_utf8_forwarded_lossily [0xFF] [] (by decide)

/-- C10: on a `progress` frame the renderer replaces every single quote
in the payload with a double quote before `JSON.parse` — so any payload
containing an apostrophe is parsed from altered text, never from the
payload as delivered — and when parsing fails the error is logged while
the progress state is left unchanged (the single-quoted payload
`\x7b'value': 50\x7d` even parses successfully after alteration). -/
theorem c10_progress_payload_quotes_replaced_before_parse :
    (∀ p : JStr, Char.ofNat 39 ∈ p → replaceQuote p ≠ p) ∧
    (∀ (st : AppState) (p : JStr), jsonParse (replaceQuote p) = none →
        rendererOnUpdate ("progress".data ++ ' ' :: p) st =
          { logs := st.logs ++ [logLine ("progress".data) p],
            progress := st.progress,
            errors := st.errors ++ ["JSON Parse Error".data] }) ∧
    (∀ st : AppState,
        (rendererOnUpdate ("progress \x7b'value': 50\x7d".data) st).progress =
          JValue.jnum { mant := 50, exp10 := 0 }) := by
  refine ⟨?_, ?_, ?_⟩
  · intro p hp heq
    have h39 : Char.ofNat 39 ∉ replaceQuote p := by
      simp only [replaceQuote, List.mem_map, not_exists]
      rintro a ⟨_, ha⟩
      by_cases h : a = Char.ofNat 39
      · rw [if_pos h] at ha
        exact absurd ha (by decide)
      · rw [if_neg h] at ha
        exact h ha
    rw [heq] at h39
    exact h39 hp
  · intro st p h
    have hdec := onUpdateDecode_append_space ("progress".data) p (by decide)
    simp only [rendererOnUpdate]
    rw [hdec]
    simp [h]
  · intro st
    rfl

/-- Witness for C10: a one-apostrophe payload is altered by the
replacement, and an unparseable `progress` payload logs an error and
leaves the progress state unchanged. -/
theorem c10_progress_payload_quotes_replaced_before_parse_w :
    replaceQuote [Char.ofNat 39] ≠ [Char.ofNat 39] ∧
    rendererOnUpdate ("progress".data ++ ' ' :: "oops".data)
        { logs := [], progress := JValue.jnull, errors := [] } =
      { logs := [] ++ [logLine ("progress".data) ("oops".data)],
        progress := JValue.jnull,
        errors := [] ++ ["JSON Parse Error".data] } :=
  ⟨c10_progress_payload_quotes_replaced_before_parse.1 [Char.ofNat 39] (by decide),
    c10_progress_payload_quotes_replaced_before_parse.2.1
      { logs := [], progress := JValue.jnull, errors := [] } ("oops".data) rfl⟩
